import Mathlib

/-!
Verification of the GestureFlow particle-visualization repository.

The development shallowly embeds the repository's logic:
* the gesture interpreter (the hand-state update inside `animate` in `App.tsx`),
* the target-shape generator (the target-generation `useEffect` in `ParticleScene`),
* the per-particle frame update (the `useFrame` callback in `ParticleScene`),
* the drawing-to-NDC projection (`stopDrawing` in `DrawingCanvas`) and the
  `handlePointsGenerated` callback in `App.tsx`.

JavaScript floating-point numbers are idealized as exact reals (`ℝ`); the
density slider value, pixel coordinates and the app-state bookkeeping, which
involve no transcendental operations, are modelled over `ℚ` so that concrete
instances can be decided by evaluation.  Calls to `Math.random()` are modelled
by explicit streams of draws (`ℕ → ℝ`) passed in as parameters.
-/

/-- The shape selector enumeration (`ParticleShape` in `types.ts`). -/
inductive ParticleShape
  | NEBULA
  | SPHERE
  | CUBE
  | RING
  | CUSTOM
deriving DecidableEq

/-- A 3-component vector of (idealized) floats. -/
@[ext] structure Vec3 where
  x : ℝ
  y : ℝ
  z : ℝ

/-- The hand state published by the gesture interpreter (`HandState` in
`types.ts`). -/
structure HandState where
  isDetected : Bool
  isPinched : Bool
  handPosition : Vec3
  pinchDistance : ℝ

/-- The number of particle slots (`PARTICLE_COUNT` in `ParticleScene`). -/
def PARTICLE_COUNT : ℕ := 15000

/-- Euclidean distance between the thumb tip and the index tip, exactly as
computed in `animate` (`App.tsx`). -/
noncomputable def pinchDist (thumbTip indexTip : Vec3) : ℝ :=
  Real.sqrt ((thumbTip.x - indexTip.x) ^ 2 + (thumbTip.y - indexTip.y) ^ 2 +
    (thumbTip.z - indexTip.z) ^ 2)

/-- One step of the hand-state update performed by `animate` in `App.tsx`:
given the previous state and an optional set of 21 detected landmarks,
produce the next state.  When no hand is detected the code runs
`setHandState(prev => ({ ...prev, isDetected: false, isPinched: false }))`;
otherwise it derives pinch distance, pinch flag and the mirrored, normalized
hand position from landmarks 4, 8, 0 and 9. -/
noncomputable def animateUpdate (prev : HandState) :
    Option (Fin 21 → Vec3) → HandState
  | none => { prev with isDetected := false, isPinched := false }
  | some landmarks =>
      let thumbTip := landmarks 4
      let indexTip := landmarks 8
      let distance := pinchDist thumbTip indexTip
      let wrist := landmarks 0
      let middle := landmarks 9
      let centerX := (wrist.x + middle.x) / 2
      let centerY := (wrist.y + middle.y) / 2
      let mirroredX := (centerX - 0.5) * (-2)
      let normalizedY := (centerY - 0.5) * (-2)
      { isDetected := true
        isPinched := @decide (distance < 0.08) (Classical.propDecidable _)
        handPosition := ⟨mirroredX, normalizedY, 0⟩
        pinchDistance := distance }

/-- C8: when no hand is detected, the update keeps the previous hand position
and pinch distance (stale values are retained) while clearing the detected
and pinched flags. -/
theorem animateUpdate_none_retains_stale (prev : HandState) :
    (animateUpdate prev none).isDetected = false ∧
    (animateUpdate prev none).isPinched = false ∧
    (animateUpdate prev none).handPosition = prev.handPosition ∧
    (animateUpdate prev none).pinchDistance = prev.pinchDistance := by
  refine ⟨rfl, rfl, rfl, rfl⟩

/-- C4: with a detected hand, the pinch flag is true exactly when the
thumb-tip-to-index-tip distance is strictly below 0.08, and at a distance of
exactly 0.08 the flag is false. -/
theorem animateUpdate_pinch_iff (prev : HandState) (landmarks : Fin 21 → Vec3) :
    ((animateUpdate prev (some landmarks)).isPinched = true ↔
      pinchDist (landmarks 4) (landmarks 8) < 0.08) ∧
    (pinchDist (landmarks 4) (landmarks 8) = 0.08 →
      (animateUpdate prev (some landmarks)).isPinched = false) := by
  constructor
  · simp [animateUpdate]
  · intro h
    simp [animateUpdate, h]

/-- Witness for C4: a concrete landmark set whose pinch distance is exactly
0.08 yields a false pinch flag. -/
theorem animateUpdate_pinch_iff_witness :
    (animateUpdate ⟨false, false, ⟨0, 0, 0⟩, 1⟩
      (some (fun k => if k.val = 4 then ⟨0.58, 0.5, 0⟩ else ⟨0.5, 0.5, 0⟩))).isPinched
      = false := by
  have hdist :
      pinchDist ((fun k : Fin 21 => if k.val = 4 then (⟨0.58, 0.5, 0⟩ : Vec3)
          else ⟨0.5, 0.5, 0⟩) 4)
        ((fun k : Fin 21 => if k.val = 4 then (⟨0.58, 0.5, 0⟩ : Vec3)
          else ⟨0.5, 0.5, 0⟩) 8) = 0.08 := by
    have h4 : ((4 : Fin 21).val = 4) = True := by decide
    have h8 : ((8 : Fin 21).val = 4) = False := by decide
    simp only [h4, h8, if_true, if_false]
    rw [pinchDist]
    rw [show ((0.58 : ℝ) - 0.5) ^ 2 + ((0.5 : ℝ) - 0.5) ^ 2 + ((0 : ℝ) - 0) ^ 2
        = (0.08 : ℝ) ^ 2 by norm_num]
    rw [Real.sqrt_sq (by norm_num)]
  exact (animateUpdate_pinch_iff ⟨false, false, ⟨0, 0, 0⟩, 1⟩
    (fun k => if k.val = 4 then ⟨0.58, 0.5, 0⟩ else ⟨0.5, 0.5, 0⟩)).2 hdist

/-- The cutoff index computed once per target regeneration:
`const count = Math.floor(PARTICLE_COUNT * config.density)`.  Indices
strictly above this cutoff are sent to deep space. -/
def exileCutoff (N : ℕ) (density : ℚ) : ℤ := ⌊(N : ℚ) * density⌋

/-- The deep-space target assigned to exiled indices: a uniformly random
point in the cube of side 50 centered at the origin
(`(Math.random() - 0.5) * 50` on each axis). -/
noncomputable def deepSpaceTarget (rand : ℕ → ℝ) : Vec3 :=
  ⟨(rand 0 - 0.5) * 50, (rand 1 - 0.5) * 50, (rand 2 - 0.5) * 50⟩

/-- The target generated for particle slot `i` by the target-generation
`useEffect` in `ParticleScene`, with each `Math.random()` call of the loop
body replaced by a draw from the stream `rand` (draws numbered in call
order within the iteration). -/
noncomputable def targetFor (shape : ParticleShape) (diffusion : ℝ)
    (density : ℚ) (customPoints : List Vec3) (N : ℕ) (rand : ℕ → ℝ)
    (i : ℕ) : Vec3 :=
  if exileCutoff N density < (i : ℤ) then
    deepSpaceTarget rand
  else
    match shape with
    | ParticleShape.NEBULA =>
        let r := rand 0 * 3 * diffusion
        let theta := rand 1 * Real.pi * 2
        let phi := Real.arccos (2 * rand 2 - 1)
        ⟨r * Real.sin phi * Real.cos theta,
         r * Real.sin phi * Real.sin theta,
         r * Real.cos phi⟩
    | ParticleShape.SPHERE =>
        let u := rand 0
        let v := rand 1
        let thetaS := 2 * Real.pi * u
        let phiS := Real.arccos (2 * v - 1)
        let radius := 2.5 * diffusion
        ⟨radius * Real.sin phiS * Real.cos thetaS,
         radius * Real.sin phiS * Real.sin thetaS,
         radius * Real.cos phiS⟩
    | ParticleShape.CUBE =>
        let side := 4 * diffusion
        ⟨(rand 0 - 0.5) * side, (rand 1 - 0.5) * side, (rand 2 - 0.5) * side⟩
    | ParticleShape.RING =>
        let rInner := 2 * diffusion
        let rOuter := 3 * diffusion
        let angle := rand 0 * Real.pi * 2
        let rad := rInner + rand 1 * (rOuter - rInner)
        ⟨Real.cos angle * rad, Real.sin angle * rad, (rand 2 - 0.5) * 0.5⟩
    | ParticleShape.CUSTOM =>
        if h : 0 < customPoints.length then
          let pt := customPoints.get
            ⟨i % customPoints.length, Nat.mod_lt _ h⟩
          ⟨pt.x * 5 * diffusion + (rand 0 - 0.5) * 0.2,
           pt.y * 5 * diffusion + (rand 1 - 0.5) * 0.2,
           pt.z + (rand 2 - 0.5) * 0.5⟩
        else
          ⟨(rand 0 - 0.5) * 5, (rand 1 - 0.5) * 5, 0⟩

/-- The number of particle slots among `0 .. N-1` whose index is past the
exile cutoff (the slots the generator sends to deep space). -/
def exiledCount (N : ℕ) (density : ℚ) : ℕ :=
  ((Finset.range N).filter (fun i : ℕ => exileCutoff N density < (i : ℤ))).card

/-- Euclidean magnitude of a `Vec3`. -/
noncomputable def norm3 (v : Vec3) : ℝ := Real.sqrt (v.x ^ 2 + v.y ^ 2 + v.z ^ 2)

lemma exiledCount_eq (N : ℕ) (density : ℚ) (hd : 0 ≤ density) :
    exiledCount N density = N - ((exileCutoff N density).toNat + 1) := by
  have hc : 0 ≤ exileCutoff N density := by
    apply Int.floor_nonneg.mpr
    positivity
  rw [exiledCount]
  have hset : (Finset.range N).filter (fun i : ℕ => exileCutoff N density < (i : ℤ))
      = Finset.Ico ((exileCutoff N density).toNat + 1) N := by
    ext i
    simp only [Finset.mem_filter, Finset.mem_range, Finset.mem_Ico]
    omega
  rw [hset, Nat.card_Ico]

lemma exileCutoff_ten_half : exileCutoff 10 (1/2) = 5 := by
  rw [exileCutoff]
  norm_num

/-- Counterexample to C1 as stated: at `N = 10`, `density = 1/2` (inside the
slider range `[0.1, 1.0]`), the generator exiles only the 4 indices
`6, 7, 8, 9` (its test is `i > count` with `count = 5`), not
`N - floor(N * density) = 5` of them. -/
theorem exiledCount_counterexample :
    exiledCount 10 (1/2) = 4 ∧
    10 - ((exileCutoff 10 (1/2)).toNat) = 5 ∧
    (1 : ℚ)/10 ≤ 1/2 ∧ (1/2 : ℚ) ≤ 1 := by
  refine ⟨?_, ?_, by norm_num, by norm_num⟩
  · rw [exiledCount]
    simp only [exileCutoff_ten_half]
    decide
  · rw [exileCutoff_ten_half]
    decide

/-- C1 (amended): for densities in `[0.1, 1.0]`, the target generator exiles
exactly `N - (floor(N * density) + 1)` indices (truncated subtraction) — the
indices strictly above the cutoff — and the target assigned to an exiled
index is the deep-space cube point, independent of the shape selector,
diffusion and custom points. -/
theorem exiled_assignment (N : ℕ) (density : ℚ) (s1 s2 : ParticleShape)
    (dif1 dif2 : ℝ) (cps1 cps2 : List Vec3) (rand : ℕ → ℝ) (i : ℕ)
    (h1 : 1/10 ≤ density) (h2 : density ≤ 1)
    (hi : exileCutoff N density < (i : ℤ)) :
    exiledCount N density = N - ((exileCutoff N density).toNat + 1) ∧
    targetFor s1 dif1 density cps1 N rand i = deepSpaceTarget rand ∧
    targetFor s1 dif1 density cps1 N rand i
      = targetFor s2 dif2 density cps2 N rand i := by
  have hx : ∀ (s : ParticleShape) (dif : ℝ) (cps : List Vec3),
      targetFor s dif density cps N rand i = deepSpaceTarget rand := by
    intro s dif cps
    rw [targetFor.eq_def, if_pos hi]
  exact ⟨exiledCount_eq N density (le_trans (by norm_num) h1), hx s1 dif1 cps1,
    by rw [hx s1 dif1 cps1, hx s2 dif2 cps2]⟩

/-- Witness for the amended C1 at `N = 10`, `density = 1/2`, `i = 7`,
comparing the SPHERE and CUBE selectors. -/
theorem exiled_assignment_witness :
    ((1 : ℚ)/10 ≤ 1/2 ∧ (1/2 : ℚ) ≤ 1 ∧ exileCutoff 10 (1/2) < (7 : ℤ)) ∧
    (exiledCount 10 (1/2) = 10 - ((exileCutoff 10 (1/2)).toNat + 1) ∧
     targetFor ParticleShape.SPHERE 1 (1/2) [] 10 (fun _ => 1/2) 7
       = deepSpaceTarget (fun _ => 1/2) ∧
     targetFor ParticleShape.SPHERE 1 (1/2) [] 10 (fun _ => 1/2) 7
       = targetFor ParticleShape.CUBE 2 (1/2) [⟨1, 1, 1⟩] 10 (fun _ => 1/2) 7) :=
  have hcut : exileCutoff 10 (1/2) < (7 : ℤ) := by
    rw [exileCutoff_ten_half]; decide
  ⟨⟨by norm_num, by norm_num, hcut⟩,
   exiled_assignment 10 (1/2) ParticleShape.SPHERE ParticleShape.CUBE 1 2 []
     [⟨1, 1, 1⟩] (fun _ => 1/2) 7 (by norm_num) (by norm_num) hcut⟩

/-- C5: every target produced by the SPHERE branch (a non-exiled index under
the sphere selector) lies at Euclidean distance exactly `2.5 * diffusion`
from the origin, for any non-negative diffusion and any random draws. -/
theorem sphere_target_distance (diffusion : ℝ) (density : ℚ)
    (cps : List Vec3) (N : ℕ) (rand : ℕ → ℝ) (i : ℕ)
    (hdiff : 0 ≤ diffusion) (hi : ¬ exileCutoff N density < (i : ℤ)) :
    norm3 (targetFor ParticleShape.SPHERE diffusion density cps N rand i)
      = 2.5 * diffusion := by
  have hunfold : targetFor ParticleShape.SPHERE diffusion density cps N rand i
      = ⟨2.5 * diffusion * Real.sin (Real.arccos (2 * rand 1 - 1)) *
           Real.cos (2 * Real.pi * rand 0),
         2.5 * diffusion * Real.sin (Real.arccos (2 * rand 1 - 1)) *
           Real.sin (2 * Real.pi * rand 0),
         2.5 * diffusion * Real.cos (Real.arccos (2 * rand 1 - 1))⟩ := by
    rw [targetFor.eq_def, if_neg hi]
  rw [hunfold]
  set thetaS := 2 * Real.pi * rand 0
  set phiS := Real.arccos (2 * rand 1 - 1)
  set radius : ℝ := 2.5 * diffusion with hR
  have key : (radius * Real.sin phiS * Real.cos thetaS) ^ 2 +
      (radius * Real.sin phiS * Real.sin thetaS) ^ 2 +
      (radius * Real.cos phiS) ^ 2 = radius ^ 2 := by
    linear_combination radius ^ 2 * Real.sin phiS ^ 2 *
        Real.sin_sq_add_cos_sq thetaS + radius ^ 2 * Real.sin_sq_add_cos_sq phiS
  have hrad : 0 ≤ radius := by
    rw [hR]; positivity
  calc norm3 ⟨radius * Real.sin phiS * Real.cos thetaS,
        radius * Real.sin phiS * Real.sin thetaS,
        radius * Real.cos phiS⟩
      = Real.sqrt (radius ^ 2) := by rw [norm3, key]
    _ = radius := Real.sqrt_sq hrad

/-- Witness for C5 at diffusion 1, density 1/2, index 3 of 10 slots. -/
theorem sphere_target_distance_witness :
    ((0 : ℝ) ≤ 1 ∧ ¬ exileCutoff 10 (1/2) < (3 : ℤ)) ∧
    norm3 (targetFor ParticleShape.SPHERE 1 (1/2) [] 10 (fun _ => 1/2) 3)
      = 2.5 * 1 :=
  have hcut : ¬ exileCutoff 10 (1/2) < (3 : ℤ) := by
    rw [exileCutoff_ten_half]; decide
  ⟨⟨by norm_num, hcut⟩,
   sphere_target_distance 1 (1/2) [] 10 (fun _ => 1/2) 3 (by norm_num) hcut⟩

/-- Per-particle simulation state: a row of the parallel position/velocity
buffers in `ParticleScene`. -/
@[ext] structure PState where
  pos : Vec3
  vel : Vec3

/-- X coordinate of the explosion reference point, as read off the exploding
branch of `useFrame`: `px - (handState.isDetected ? -handX * 5 : 0)` with
`handX = handState.handPosition.x * viewport.width / 2`. -/
noncomputable def refPointX (hs : HandState) (viewportW : ℝ) : ℝ :=
  if hs.isDetected then -(hs.handPosition.x * viewportW / 2) * 5 else 0

/-- Y coordinate of the explosion reference point
(`handY = handState.handPosition.y * viewport.height / 2`). -/
noncomputable def refPointY (hs : HandState) (viewportH : ℝ) : ℝ :=
  if hs.isDetected then -(hs.handPosition.y * viewportH / 2) * 5 else 0

/-- The divisor used to normalize the particle-to-reference vector in the
exploding branch: `Math.sqrt(dx*dx + dy*dy + dz*dz) + 0.1`. -/
noncomputable def explodeDist (dx dy dz : ℝ) : ℝ :=
  Real.sqrt (dx * dx + dy * dy + dz * dz) + 0.1

lemma explodeDist_ge (dx dy dz : ℝ) : 0.1 ≤ explodeDist dx dy dz := by
  rw [explodeDist]
  have h := Real.sqrt_nonneg (dx * dx + dy * dy + dz * dz)
  linarith

lemma explodeDist_pos (dx dy dz : ℝ) : 0 < explodeDist dx dy dz :=
  lt_of_lt_of_le (by norm_num) (explodeDist_ge dx dy dz)

/-- One iteration of the per-particle loop in the `useFrame` callback of
`ParticleScene`: given the hand state, viewport size, elapsed time, particle
index, target, random draws and current position/velocity, produce the next
position/velocity.  Mirrors the source line by line, including the
`lerpFactor` selection `isExploding ? 0.02 : 0.08` and the unconditional
velocity application at the end. -/
noncomputable def useFrameStep (hs : HandState) (viewportW viewportH : ℝ)
    (elapsedTime : ℝ) (i : ℕ) (target : Vec3) (rand : ℕ → ℝ)
    (st : PState) : PState :=
  let isExploding := hs.isDetected && hs.isPinched
  let lerpFactor : ℝ := if isExploding then 0.02 else 0.08
  let explosionForce : ℝ := 0.5
  if isExploding then
    let dx := st.pos.x - refPointX hs viewportW
    let dy := st.pos.y - refPointY hs viewportH
    let dz := st.pos.z - 0
    let dist := explodeDist dx dy dz
    let vx := st.vel.x + dx / dist * explosionForce * rand 0
    let vy := st.vel.y + dy / dist * explosionForce * rand 1
    let vz := st.vel.z + dz / dist * explosionForce * rand 2
    { pos := ⟨st.pos.x + vx, st.pos.y + vy, st.pos.z + vz⟩
      vel := ⟨vx, vy, vz⟩ }
  else
    let vx := st.vel.x * 0.90
    let vy := st.vel.y * 0.90
    let vz := st.vel.z * 0.90
    let px := st.pos.x + (target.x - st.pos.x) * lerpFactor
    let py := st.pos.y + (target.y - st.pos.y) * lerpFactor
    let pz := st.pos.z + (target.z - st.pos.z) * lerpFactor
    let px2 := px + Real.sin (elapsedTime + i) * 0.002
    let py2 := py + Real.cos (elapsedTime + i) * 0.002
    { pos := ⟨px2 + vx, py2 + vy, pz + vz⟩
      vel := ⟨vx, vy, vz⟩ }

/-- The aggregation update exactly as the specification words it: damp the
velocity by 0.90 componentwise, then move the position toward the target by
factor 0.08, then add the sinusoidal jitter of amplitude 0.002 with phase
`elapsedTime + i`, then add the damped velocity to the position. -/
noncomputable def aggSpecStep (elapsedTime : ℝ) (i : ℕ) (target : Vec3)
    (st : PState) : PState :=
  let dampedVel : Vec3 := ⟨st.vel.x * 0.90, st.vel.y * 0.90, st.vel.z * 0.90⟩
  let lerped : Vec3 := ⟨st.pos.x + (target.x - st.pos.x) * 0.08,
                        st.pos.y + (target.y - st.pos.y) * 0.08,
                        st.pos.z + (target.z - st.pos.z) * 0.08⟩
  let jittered : Vec3 := ⟨lerped.x + Real.sin (elapsedTime + i) * 0.002,
                          lerped.y + Real.cos (elapsedTime + i) * 0.002,
                          lerped.z⟩
  { pos := ⟨jittered.x + dampedVel.x, jittered.y + dampedVel.y,
            jittered.z + dampedVel.z⟩
    vel := dampedVel }

/-- C3: in a non-exploding frame, the per-particle update is exactly the
specified aggregation sequence: damp velocity by 0.90, lerp the position
toward the target with factor 0.08, add the sinusoidal jitter of amplitude
0.002 and phase `elapsedTime + i`, then add the damped velocity. -/
theorem aggregation_step_matches_spec (hs : HandState)
    (viewportW viewportH elapsedTime : ℝ) (i : ℕ) (target : Vec3)
    (rand : ℕ → ℝ) (st : PState)
    (hagg : (hs.isDetected && hs.isPinched) = false) :
    useFrameStep hs viewportW viewportH elapsedTime i target rand st
      = aggSpecStep elapsedTime i target st := by
  ext <;> simp [useFrameStep, aggSpecStep, hagg] <;> ring

/-- Witness for C3 at a concrete undetected hand state and particle state. -/
theorem aggregation_step_matches_spec_witness :
    ((((⟨false, false, ⟨0, 0, 0⟩, 1⟩ : HandState)).isDetected
        && ((⟨false, false, ⟨0, 0, 0⟩, 1⟩ : HandState)).isPinched) = false) ∧
    useFrameStep ⟨false, false, ⟨0, 0, 0⟩, 1⟩ 8 6 0 0 ⟨1, 2, 3⟩ (fun _ => 1/2)
        ⟨⟨1, 0, 0⟩, ⟨0, 1, 0⟩⟩
      = aggSpecStep 0 0 ⟨1, 2, 3⟩ ⟨⟨1, 0, 0⟩, ⟨0, 1, 0⟩⟩ :=
  ⟨rfl, aggregation_step_matches_spec ⟨false, false, ⟨0, 0, 0⟩, 1⟩ 8 6 0 0
    ⟨1, 2, 3⟩ (fun _ => 1/2) ⟨⟨1, 0, 0⟩, ⟨0, 1, 0⟩⟩ rfl⟩

/-- C6: while exploding, the update does not read the target buffer (the
result is the same for any two targets) and the new position is exactly the
old position plus the new velocity, componentwise. -/
theorem exploding_step_ignores_target (hs : HandState)
    (viewportW viewportH elapsedTime : ℝ) (i : ℕ) (t t' : Vec3)
    (rand : ℕ → ℝ) (st : PState)
    (hdet : hs.isDetected = true) (hpin : hs.isPinched = true) :
    useFrameStep hs viewportW viewportH elapsedTime i t rand st
      = useFrameStep hs viewportW viewportH elapsedTime i t' rand st ∧
    (useFrameStep hs viewportW viewportH elapsedTime i t rand st).pos
      = ⟨st.pos.x + (useFrameStep hs viewportW viewportH elapsedTime i t rand st).vel.x,
         st.pos.y + (useFrameStep hs viewportW viewportH elapsedTime i t rand st).vel.y,
         st.pos.z + (useFrameStep hs viewportW viewportH elapsedTime i t rand st).vel.z⟩ := by
  constructor <;> simp [useFrameStep, hdet, hpin]

/-- Witness for C6 at a concrete pinched hand state. -/
theorem exploding_step_ignores_target_witness :
    ((⟨true, true, ⟨0, 0, 0⟩, 0⟩ : HandState).isDetected = true ∧
     (⟨true, true, ⟨0, 0, 0⟩, 0⟩ : HandState).isPinched = true) ∧
    (useFrameStep ⟨true, true, ⟨0, 0, 0⟩, 0⟩ 8 6 0 0 ⟨1, 2, 3⟩ (fun _ => 1/2)
        ⟨⟨1, 0, 0⟩, ⟨0, 0, 0⟩⟩
      = useFrameStep ⟨true, true, ⟨0, 0, 0⟩, 0⟩ 8 6 0 0 ⟨4, 5, 6⟩ (fun _ => 1/2)
        ⟨⟨1, 0, 0⟩, ⟨0, 0, 0⟩⟩ ∧
    (useFrameStep ⟨true, true, ⟨0, 0, 0⟩, 0⟩ 8 6 0 0 ⟨1, 2, 3⟩ (fun _ => 1/2)
        ⟨⟨1, 0, 0⟩, ⟨0, 0, 0⟩⟩).pos
      = ⟨1 + (useFrameStep ⟨true, true, ⟨0, 0, 0⟩, 0⟩ 8 6 0 0 ⟨1, 2, 3⟩ (fun _ => 1/2)
          ⟨⟨1, 0, 0⟩, ⟨0, 0, 0⟩⟩).vel.x,
         0 + (useFrameStep ⟨true, true, ⟨0, 0, 0⟩, 0⟩ 8 6 0 0 ⟨1, 2, 3⟩ (fun _ => 1/2)
          ⟨⟨1, 0, 0⟩, ⟨0, 0, 0⟩⟩).vel.y,
         0 + (useFrameStep ⟨true, true, ⟨0, 0, 0⟩, 0⟩ 8 6 0 0 ⟨1, 2, 3⟩ (fun _ => 1/2)
          ⟨⟨1, 0, 0⟩, ⟨0, 0, 0⟩⟩).vel.z⟩) :=
  ⟨⟨rfl, rfl⟩, exploding_step_ignores_target ⟨true, true, ⟨0, 0, 0⟩, 0⟩ 8 6 0 0
    ⟨1, 2, 3⟩ ⟨4, 5, 6⟩ (fun _ => 1/2) ⟨⟨1, 0, 0⟩, ⟨0, 0, 0⟩⟩ rfl rfl⟩

/-- C9: the normalization divisor of the exploding branch is the Euclidean
distance plus 0.1, hence at least 0.1 and never zero, for every particle
position and reference point; when the particle coincides with the
reference point the divisor is exactly 0.1. -/
theorem explode_divisor_total (pos ref : Vec3) :
    0.1 ≤ explodeDist (pos.x - ref.x) (pos.y - ref.y) (pos.z - ref.z) ∧
    explodeDist (pos.x - ref.x) (pos.y - ref.y) (pos.z - ref.z) ≠ 0 ∧
    explodeDist 0 0 0 = 0.1 := by
  refine ⟨explodeDist_ge _ _ _, ne_of_gt (explodeDist_pos _ _ _), ?_⟩
  rw [explodeDist]
  rw [show (0 : ℝ) * 0 + 0 * 0 + 0 * 0 = 0 by norm_num, Real.sqrt_zero]
  norm_num

lemma norm3_axis (a : ℝ) : norm3 ⟨a, 0, 0⟩ = |a| := by
  rw [norm3]
  rw [show a ^ 2 + (0 : ℝ) ^ 2 + (0 : ℝ) ^ 2 = a ^ 2 by ring]
  exact Real.sqrt_sq_eq_abs a

lemma sqrt_eightyone : Real.sqrt 81 = 9 := by
  rw [show (81 : ℝ) = 9 ^ 2 by norm_num, Real.sqrt_sq (by norm_num)]

lemma sqrt_frame2a : Real.sqrt 18769 = 137 := by
  rw [show (18769 : ℝ) = 137 ^ 2 by norm_num, Real.sqrt_sq (by norm_num)]

lemma sqrt_frame2b : Real.sqrt 33124 = 182 := by
  rw [show (33124 : ℝ) = 182 ^ 2 by norm_num, Real.sqrt_sq (by norm_num)]

lemma explode_frame1 :
    useFrameStep ⟨true, true, ⟨-(1/2), 0, 0⟩, 0⟩ 8 8 0 0 ⟨0, 0, 0⟩
      (fun _ => 1/2) ⟨⟨1, 0, 0⟩, ⟨0, 0, 0⟩⟩
      = ⟨⟨137/182, 0, 0⟩, ⟨-(45/182), 0, 0⟩⟩ := by
  simp only [useFrameStep, refPointX, refPointY, explodeDist]
  norm_num [sqrt_eightyone]

lemma explode_frame2 :
    useFrameStep ⟨true, true, ⟨0, 0, 0⟩, 0⟩ 8 8 0 0 ⟨0, 0, 0⟩
      (fun _ => 1/2) ⟨⟨137/182, 0, 0⟩, ⟨-(45/182), 0, 0⟩⟩
      = ⟨⟨137/182 + -(7505/282464), 0, 0⟩, ⟨-(7505/282464), 0, 0⟩⟩ := by
  simp only [useFrameStep, refPointX, refPointY, explodeDist]
  norm_num [sqrt_frame2a, sqrt_frame2b]

/-- Counterexample to C2 as stated: starting from rest, two exploding frames
with the hand reference first to the right of the particle and then at the
origin leave the particle with a smaller speed after the second frame than
after the first — velocity magnitude is not monotonically non-decreasing in
the exploding branch. -/
theorem exploding_velocity_not_monotone :
    norm3 ((useFrameStep ⟨true, true, ⟨0, 0, 0⟩, 0⟩ 8 8 0 0 ⟨0, 0, 0⟩
        (fun _ => 1/2)
        (useFrameStep ⟨true, true, ⟨-(1/2), 0, 0⟩, 0⟩ 8 8 0 0 ⟨0, 0, 0⟩
          (fun _ => 1/2) ⟨⟨1, 0, 0⟩, ⟨0, 0, 0⟩⟩)).vel) <
    norm3 ((useFrameStep ⟨true, true, ⟨-(1/2), 0, 0⟩, 0⟩ 8 8 0 0 ⟨0, 0, 0⟩
        (fun _ => 1/2) ⟨⟨1, 0, 0⟩, ⟨0, 0, 0⟩⟩).vel) := by
  rw [explode_frame1, explode_frame2]
  simp only [norm3_axis]
  rw [abs_of_nonpos (by norm_num), abs_of_nonpos (by norm_num)]
  norm_num

lemma sq_le_sq_add (a b : ℝ) (h : 0 ≤ a * b) : a ^ 2 ≤ (a + b) ^ 2 := by
  nlinarith [sq_nonneg b]

/-- C2 (amended): in the exploding branch, the velocity magnitude is
non-decreasing over a frame provided every velocity component points weakly
away from the reference point (it has non-negative product with the matching
component of the particle-to-reference displacement) — in particular when
the particle starts at rest.  The unqualified claim fails:
see the counterexample. -/
theorem exploding_velocity_monotone_aligned (hs : HandState)
    (viewportW viewportH elapsedTime : ℝ) (i : ℕ) (target : Vec3)
    (rand : ℕ → ℝ) (st : PState)
    (hdet : hs.isDetected = true) (hpin : hs.isPinched = true)
    (hr0 : 0 ≤ rand 0) (hr1 : 0 ≤ rand 1) (hr2 : 0 ≤ rand 2)
    (hx : 0 ≤ st.vel.x * (st.pos.x - refPointX hs viewportW))
    (hy : 0 ≤ st.vel.y * (st.pos.y - refPointY hs viewportH))
    (hz : 0 ≤ st.vel.z * st.pos.z) :
    norm3 st.vel
      ≤ norm3 ((useFrameStep hs viewportW viewportH elapsedTime i target
          rand st).vel) := by
  have hstep : (useFrameStep hs viewportW viewportH elapsedTime i target
      rand st).vel
      = ⟨st.vel.x + (st.pos.x - refPointX hs viewportW) /
            explodeDist (st.pos.x - refPointX hs viewportW)
              (st.pos.y - refPointY hs viewportH) (st.pos.z - 0) * 0.5 * rand 0,
         st.vel.y + (st.pos.y - refPointY hs viewportH) /
            explodeDist (st.pos.x - refPointX hs viewportW)
              (st.pos.y - refPointY hs viewportH) (st.pos.z - 0) * 0.5 * rand 1,
         st.vel.z + (st.pos.z - 0) /
            explodeDist (st.pos.x - refPointX hs viewportW)
              (st.pos.y - refPointY hs viewportH) (st.pos.z - 0) * 0.5 * rand 2⟩ := by
    simp [useFrameStep, hdet, hpin]
  rw [hstep, norm3, norm3]
  apply Real.sqrt_le_sqrt
  set dx := st.pos.x - refPointX hs viewportW with hdx
  set dy := st.pos.y - refPointY hs viewportH with hdy
  set dist := explodeDist dx dy (st.pos.z - 0) with hdist
  have hdistpos : 0 < dist := explodeDist_pos _ _ _
  have hbx : 0 ≤ st.vel.x * (dx / dist * 0.5 * rand 0) := by
    rw [show st.vel.x * (dx / dist * 0.5 * rand 0)
        = st.vel.x * dx * (0.5 * rand 0) / dist by ring]
    exact div_nonneg (mul_nonneg hx (by linarith)) hdistpos.le
  have hby : 0 ≤ st.vel.y * (dy / dist * 0.5 * rand 1) := by
    rw [show st.vel.y * (dy / dist * 0.5 * rand 1)
        = st.vel.y * dy * (0.5 * rand 1) / dist by ring]
    exact div_nonneg (mul_nonneg hy (by linarith)) hdistpos.le
  have hbz : 0 ≤ st.vel.z * ((st.pos.z - 0) / dist * 0.5 * rand 2) := by
    rw [show st.vel.z * ((st.pos.z - 0) / dist * 0.5 * rand 2)
        = st.vel.z * st.pos.z * (0.5 * rand 2) / dist by ring]
    exact div_nonneg (mul_nonneg hz (by linarith)) hdistpos.le
  have h1 := sq_le_sq_add (st.vel.x) (dx / dist * 0.5 * rand 0) hbx
  have h2 := sq_le_sq_add (st.vel.y) (dy / dist * 0.5 * rand 1) hby
  have h3 := sq_le_sq_add (st.vel.z) ((st.pos.z - 0) / dist * 0.5 * rand 2) hbz
  linarith

/-- Witness for the amended C2: a particle at `(1, 0, 0)` moving away from a
reference point at the origin does not lose speed in an exploding frame. -/
theorem exploding_velocity_monotone_aligned_witness :
    ((⟨true, true, ⟨0, 0, 0⟩, 0⟩ : HandState).isDetected = true ∧
     (⟨true, true, ⟨0, 0, 0⟩, 0⟩ : HandState).isPinched = true ∧
     (0 : ℝ) ≤ (1 : ℝ) * (1 - refPointX ⟨true, true, ⟨0, 0, 0⟩, 0⟩ 8)) ∧
    norm3 ⟨1, 0, 0⟩
      ≤ norm3 ((useFrameStep ⟨true, true, ⟨0, 0, 0⟩, 0⟩ 8 8 0 0 ⟨0, 0, 0⟩
          (fun _ => 1/2) ⟨⟨1, 0, 0⟩, ⟨1, 0, 0⟩⟩).vel) :=
  ⟨⟨rfl, rfl, by simp [refPointX]⟩,
   exploding_velocity_monotone_aligned ⟨true, true, ⟨0, 0, 0⟩, 0⟩ 8 8 0 0
     ⟨0, 0, 0⟩ (fun _ => 1/2) ⟨⟨1, 0, 0⟩, ⟨1, 0, 0⟩⟩ rfl rfl (by norm_num)
     (by norm_num) (by norm_num) (by simp [refPointX]) (by simp [refPointY])
     (by norm_num)⟩

/-- A 3-component vector over `ℚ`, used for the drawing pipeline where the
source performs only field arithmetic. -/
@[ext] structure Vec3Q where
  x : ℚ
  y : ℚ
  z : ℚ
deriving DecidableEq

/-- The pixel-to-NDC conversion applied to one captured point in
`stopDrawing` (`DrawingCanvas`): `nx = (p.x / width) * 2 - 1`,
`ny = -(p.y / height) * 2 + 1`, `z = 0`. -/
def ndcMap (width height : ℚ) (p : ℚ × ℚ) : Vec3Q :=
  ⟨p.1 / width * 2 - 1, -(p.2 / height) * 2 + 1, 0⟩

/-- The ordered list of 3D points produced from the captured stroke on
release (`pointsRef.current.map(...)` in `stopDrawing`). -/
def stopDrawingPoints (width height : ℚ) (pts : List (ℚ × ℚ)) : List Vec3Q :=
  pts.map (ndcMap width height)

/-- The slice of top-level app state touched by the drawing pipeline. -/
structure AppModel where
  shape : ParticleShape
  customPoints : List Vec3Q
  isDrawing : Bool

/-- `handlePointsGenerated` in `App.tsx`: store the points, switch the shape
selector to CUSTOM and close the drawing overlay. -/
def handlePointsGenerated (m : AppModel) (points : List Vec3Q) : AppModel :=
  { m with customPoints := points, shape := ParticleShape.CUSTOM,
           isDrawing := false }

/-- The release handler `stopDrawing` as it affects app state: only when the
captured list is non-empty (`pointsRef.current.length > 0`) does it convert
the stroke and invoke `onPointsGenerated`. -/
def stopDrawing (m : AppModel) (width height : ℚ)
    (captured : List (ℚ × ℚ)) : AppModel :=
  if 0 < captured.length then
    handlePointsGenerated m (stopDrawingPoints width height captured)
  else m

/-- C7: on release every captured pixel point is mapped by
`(x, y) ↦ ((x/width)*2 - 1, -(y/height)*2 + 1, 0)` in capture order, with no
resampling, smoothing or deduplication (the output is exactly the pointwise
image of the input list), and the corners `(0,0)` and `(width, height)` map
to `(-1, 1, 0)` and `(1, -1, 0)`. -/
theorem stopDrawing_ndc (width height : ℚ) (pts : List (ℚ × ℚ))
    (hw : 0 < width) (hh : 0 < height) :
    stopDrawingPoints width height pts
      = pts.map (fun p => ⟨p.1 / width * 2 - 1, -(p.2 / height) * 2 + 1, 0⟩) ∧
    (stopDrawingPoints width height pts).length = pts.length ∧
    ndcMap width height (0, 0) = ⟨-1, 1, 0⟩ ∧
    ndcMap width height (width, height) = ⟨1, -1, 0⟩ := by
  refine ⟨rfl, ?_, ?_, ?_⟩
  · rw [stopDrawingPoints, List.length_map]
  · rw [ndcMap]
    norm_num
  · rw [ndcMap]
    simp only [div_self (ne_of_gt hw), div_self (ne_of_gt hh)]
    norm_num

/-- Witness for C7 on a 2×2 canvas with a two-point stroke. -/
theorem stopDrawing_ndc_witness :
    ((0 : ℚ) < 2 ∧ (0 : ℚ) < 2) ∧
    (stopDrawingPoints 2 2 [(0, 0), (2, 2)]
      = [(0, 0), (2, 2)].map
          (fun p => ⟨p.1 / 2 * 2 - 1, -(p.2 / 2) * 2 + 1, 0⟩) ∧
    (stopDrawingPoints 2 2 [(0, 0), (2, 2)]).length
      = ([(0, 0), (2, 2)] : List (ℚ × ℚ)).length ∧
    ndcMap 2 2 (0, 0) = ⟨-1, 1, 0⟩ ∧
    ndcMap 2 2 (2, 2) = ⟨1, -1, 0⟩) :=
  ⟨⟨by norm_num, by norm_num⟩,
   stopDrawing_ndc 2 2 [(0, 0), (2, 2)] (by norm_num) (by norm_num)⟩

/-- C10: a release with zero captured points leaves the stored custom point
list and the active shape selector unchanged (the points-generated callback
is not invoked). -/
theorem stopDrawing_empty_keeps_state (m : AppModel) (width height : ℚ)
    (captured : List (ℚ × ℚ)) (hempty : captured.length = 0) :
    (stopDrawing m width height captured).customPoints = m.customPoints ∧
    (stopDrawing m width height captured).shape = m.shape := by
  rw [stopDrawing, if_neg (by omega)]
  exact ⟨rfl, rfl⟩

/-- Witness for C10 at a concrete app state and an empty capture list. -/
theorem stopDrawing_empty_keeps_state_witness :
    (([] : List (ℚ × ℚ)).length = 0) ∧
    ((stopDrawing ⟨ParticleShape.SPHERE, [⟨1, 1, 0⟩], true⟩ 2 2 []).customPoints
       = [(⟨1, 1, 0⟩ : Vec3Q)] ∧
     (stopDrawing ⟨ParticleShape.SPHERE, [⟨1, 1, 0⟩], true⟩ 2 2 []).shape
       = ParticleShape.SPHERE) :=
  ⟨rfl, stopDrawing_empty_keeps_state ⟨ParticleShape.SPHERE, [⟨1, 1, 0⟩], true⟩
    2 2 [] rfl⟩
